import Mathlib

/-!
Shallow embedding of the wormhole-client-js wire codec (src/proto.ts) and of
the client session machinery (src/client.ts), together with theorems settling
the specification claims about them.

Buffers are modelled as `List Nat`, one element per byte.  A JavaScript
string is modelled by its UTF-8 byte sequence (`List Nat`), so
`Buffer.byteLength(s, "utf8")` becomes `s.length` and the utf8
encode/decode pair becomes the identity.  JavaScript `number` and `bigint`
fields are modelled as `Nat`; the implicit truncation performed by
`DataView.setUint8` / `setUint32` / `setBigUint64` is made explicit as
`% 2 ^ 8`, `% 2 ^ 32`, `% 2 ^ 64` at the writing site, and the 32-bit
conversion performed by the JavaScript bitwise operators is made explicit
as `% 2 ^ 32` on their operands.
-/

deriving instance DecidableEq for Except

namespace Wormhole

/-- Wire protocol version constant, `VERSION = 0x10` in src/proto.ts. -/
def VERSION : Nat := 0x10

/-- Maximum payload size, `MAX_PAYLOAD_SIZE = 1024 * 1024` in src/proto.ts. -/
def MAX_PAYLOAD_SIZE : Nat := 1024 * 1024

/-- Maximum string length, `MAX_STRING_LENGTH = 4096` in src/proto.ts. -/
def MAX_STRING_LENGTH : Nat := 4096

/-- Size of the fixed header, `HEADER_SIZE = 12` in src/proto.ts. -/
def HEADER_SIZE : Nat := 12

/-- Size of the fixed part of a Request, `REQUEST_SIZE = 5` in src/proto.ts. -/
def REQUEST_SIZE : Nat := 5

/-- Size of the fixed part of a Response, `RESPONSE_SIZE = 13` in src/proto.ts. -/
def RESPONSE_SIZE : Nat := 13

/-- Size of a Metrics payload, `METRICS_SIZE = 36` in src/proto.ts. -/
def METRICS_SIZE : Nat := 36

/-- Message type constant `MessageType.Request = 0x01`. -/
def MessageType.Request : Nat := 0x01

/-- Message type constant `MessageType.Response = 0x02`. -/
def MessageType.Response : Nat := 0x02

/-- Message type constant `MessageType.Access = 0x03`. -/
def MessageType.Access : Nat := 0x03

/-- Message type constant `MessageType.Ack = 0x04`. -/
def MessageType.Ack : Nat := 0x04

/-- Message type constant `MessageType.Metrics = 0x05`. -/
def MessageType.Metrics : Nat := 0x05

/-- Message type constant `MessageType.End = 0x06`. -/
def MessageType.End : Nat := 0x06

/-- Message type constant `MessageType.Error = 0xff`. -/
def MessageType.Error : Nat := 0xff

/-- Flag constant `FLAG_METRICS = 0x01` in src/proto.ts. -/
def FLAG_METRICS : Nat := 0x01

/-- Protocol constant `ProtoType.HTTP = 0x01`. -/
def ProtoType.HTTP : Nat := 0x01

/-- Protocol constant `ProtoType.TCP = 0x02`. -/
def ProtoType.TCP : Nat := 0x02

/-- Status constant `StatusCode.OK = 0x01`. -/
def StatusCode.OK : Nat := 0x01

/-- Status constant `StatusCode.NameTaken = 0x03`. -/
def StatusCode.NameTaken : Nat := 0x03

/-- Status constant `StatusCode.UnsupportedProto = 0x04`. -/
def StatusCode.UnsupportedProto : Nat := 0x04

/-- Errors thrown by the codec in src/proto.ts.  Each constructor stands for
one `throw new Error(...)` site, named after the thrown message:
`invalidVersion` for the message invalid version, `payloadTooLarge` for
payload too large, `reservedNonZero` for reserved field must be zero,
`invalidHeaderSize` for invalid header size, `invalidRequestSize` for
invalid request size, `invalidResponseSize` for invalid response size,
`invalidMetricsSize` for invalid metrics size, `insufficientData` for
insufficient data, `invalidProtocol` for invalid protocol, `emptyString`
for string field cannot be empty, `invalidLengthField` for invalid length
field, `stringTooLong` for string exceeds maximum length, and
`invalidStatusCode` for invalid status code. -/
inductive ProtoErr where
  | invalidVersion
  | payloadTooLarge
  | reservedNonZero
  | invalidHeaderSize
  | invalidRequestSize
  | invalidResponseSize
  | invalidMetricsSize
  | insufficientData
  | invalidProtocol
  | emptyString
  | invalidLengthField
  | stringTooLong
  | invalidStatusCode
deriving DecidableEq, Repr

/-- Big-endian byte encoding of `v` on `n` bytes, the value written by the
`DataView` setters with `littleEndian = false`.  The most significant byte
comes first; the caller reduces `v` modulo `2 ^ (8 * n)` to mirror the
truncation the JavaScript setters perform. -/
def natToBE : Nat → Nat → List Nat
  | 0, _ => []
  | n + 1, v => natToBE n (v / 256) ++ [v % 256]

/-- Big-endian byte decoding, the value read by the `DataView` getters with
`littleEndian = false`. -/
def beToNat (l : List Nat) : Nat :=
  l.foldl (fun acc b => acc * 256 + b) 0

/-- Contiguous slice of a buffer: `n` bytes starting at offset `off`, as read
by the `DataView` getters and by `Buffer.subarray`. -/
def bufSlice (buf : List Nat) (off n : Nat) : List Nat :=
  (buf.drop off).take n

/-- Header class of src/proto.ts: `version`, `type`, `flags`, `reserved` are
u8-valued JavaScript numbers and `length` is a u64-valued bigint. -/
structure Header where
  version : Nat
  type : Nat
  flags : Nat
  length : Nat
  reserved : Nat
deriving DecidableEq, Repr

/-- Header constructor `new Header(type, length)`: it fixes
`version = VERSION`, `flags = 0`, `reserved = 0`. -/
def Header.make (type length : Nat) : Header :=
  ⟨VERSION, type, 0, length, 0⟩

/-- Method `Header.hasFlag`: `(this.flags & flag) !== 0`.  The JavaScript
`&` operator converts both operands to 32-bit integers; the unsigned image
of that conversion is `% 2 ^ 32`. -/
def Header.hasFlag (h : Header) (flag : Nat) : Bool :=
  ((h.flags % 2 ^ 32) &&& (flag % 2 ^ 32)) != 0

/-- Method `Header.setFlag`: `this.flags |= flag` under the 32-bit
conversion of the JavaScript `|` operator. -/
def Header.setFlag (h : Header) (flag : Nat) : Header :=
  { h with flags := (h.flags % 2 ^ 32) ||| (flag % 2 ^ 32) }

/-- Method `Header.clearFlag`: `this.flags = this.flags & ~flag`; the 32-bit
complement `~flag` is `(flag % 2 ^ 32) ^^^ (2 ^ 32 - 1)`. -/
def Header.clearFlag (h : Header) (flag : Nat) : Header :=
  { h with flags := (h.flags % 2 ^ 32) &&& ((flag % 2 ^ 32) ^^^ (2 ^ 32 - 1)) }

/-- Request class of src/proto.ts.  `name` is the UTF-8 byte sequence of the
name string; `nameLength` is the stored `nameLength` field. -/
structure Request where
  proto : Nat
  nameLength : Nat
  name : List Nat
deriving DecidableEq, Repr

/-- Request constructor `new Request(proto, name)`: it computes
`nameLength = Buffer.byteLength(name, "utf8")`, which is the length of the
UTF-8 byte sequence. -/
def Request.make (proto : Nat) (name : List Nat) : Request :=
  ⟨proto, name.length, name⟩

/-- Response class of src/proto.ts.  `domain` is the UTF-8 byte sequence of
the domain string; `domainLength` is the stored `domainLength` field. -/
structure Response where
  status : Nat
  ttlHours : Nat
  domainLength : Nat
  domain : List Nat
deriving DecidableEq, Repr

/-- Response constructor `new Response(status, ttlHours, domain)`: it
computes `domainLength = Buffer.byteLength(domain, "utf8")`. -/
def Response.make (status ttlHours : Nat) (domain : List Nat) : Response :=
  ⟨status, ttlHours, domain.length, domain⟩

/-- Metrics class of src/proto.ts: four u64 bigint fields and one u32
number field. -/
structure Metrics where
  ingress : Nat
  egress : Nat
  uptime : Nat
  connectionCount : Nat
  activeConnections : Nat
deriving DecidableEq, Repr

/-- Function `validateHeader` of src/proto.ts: checks
`version === VERSION`, `length <= MAX_PAYLOAD_SIZE`, `reserved === 0`,
in that order. -/
def validateHeader (h : Header) : Except ProtoErr Unit :=
  if h.version ≠ VERSION then .error .invalidVersion
  else if h.length > MAX_PAYLOAD_SIZE then .error .payloadTooLarge
  else if h.reserved ≠ 0 then .error .reservedNonZero
  else .ok ()

/-- Byte image produced by `serializeHeader` once validation has passed:
`setUint8(0, version)`, `setUint8(1, type)`, `setUint8(2, flags)`,
`setBigUint64(3, length, false)`, `setUint8(11, reserved)`. -/
def serializeHeaderBytes (h : Header) : List Nat :=
  [h.version % 2 ^ 8, h.type % 2 ^ 8, h.flags % 2 ^ 8]
    ++ natToBE 8 (h.length % 2 ^ 64) ++ [h.reserved % 2 ^ 8]

/-- Function `serializeHeader` of src/proto.ts: validate, then write the
12 header bytes. -/
def serializeHeader (h : Header) : Except ProtoErr (List Nat) :=
  match validateHeader h with
  | .error e => .error e
  | .ok _ => .ok (serializeHeaderBytes h)

/-- Function `deserializeHeader` of src/proto.ts: reject buffers shorter
than `HEADER_SIZE`, read the five fields, validate, return the header. -/
def deserializeHeader (buf : List Nat) : Except ProtoErr Header :=
  if buf.length < HEADER_SIZE then .error .invalidHeaderSize
  else
    let h : Header :=
      ⟨buf.getD 0 0, buf.getD 1 0, buf.getD 2 0, beToNat (bufSlice buf 3 8),
        buf.getD 11 0⟩
    match validateHeader h with
    | .error e => .error e
    | .ok _ => .ok h

/-- Function `validateRequest` of src/proto.ts: proto must be HTTP or TCP,
the name and the stored `nameLength` must be non-empty, `nameLength` must
equal the recomputed UTF-8 byte length, and `nameLength` must not exceed
`MAX_STRING_LENGTH`, checked in that order. -/
def validateRequest (r : Request) : Except ProtoErr Unit :=
  if r.proto ≠ ProtoType.HTTP ∧ r.proto ≠ ProtoType.TCP then .error .invalidProtocol
  else if r.name.length = 0 ∨ r.nameLength = 0 then .error .emptyString
  else if r.nameLength ≠ r.name.length then .error .invalidLengthField
  else if r.nameLength > MAX_STRING_LENGTH then .error .stringTooLong
  else .ok ()

/-- Function `serializeRequest` of src/proto.ts: validate, then write
`setUint8(0, proto)`, `setUint32(1, nameLength, false)` and the name bytes
at offset `REQUEST_SIZE`. -/
def serializeRequest (r : Request) : Except ProtoErr (List Nat) :=
  match validateRequest r with
  | .error e => .error e
  | .ok _ => .ok ([r.proto % 2 ^ 8] ++ natToBE 4 (r.nameLength % 2 ^ 32) ++ r.name)

/-- Function `deserializeRequest` of src/proto.ts: reject buffers shorter
than `REQUEST_SIZE`, read `proto` and `nameLength`, reject buffers shorter
than `REQUEST_SIZE + nameLength`, slice the name bytes, rebuild through the
constructor, validate. -/
def deserializeRequest (buf : List Nat) : Except ProtoErr Request :=
  if buf.length < REQUEST_SIZE then .error .invalidRequestSize
  else
    let nameLength := beToNat (bufSlice buf 1 4)
    if buf.length < REQUEST_SIZE + nameLength then .error .insufficientData
    else
      let r := Request.make (buf.getD 0 0) (bufSlice buf REQUEST_SIZE nameLength)
      match validateRequest r with
      | .error e => .error e
      | .ok _ => .ok r

/-- Function `validateResponse` of src/proto.ts: the status must be OK,
NameTaken or UnsupportedProto; the domain checks (non-empty, length
agreement, maximum length) run only when `status === OK`. -/
def validateResponse (p : Response) : Except ProtoErr Unit :=
  if p.status ≠ StatusCode.OK ∧ p.status ≠ StatusCode.NameTaken ∧
      p.status ≠ StatusCode.UnsupportedProto then .error .invalidStatusCode
  else if p.status = StatusCode.OK then
    if p.domain.length = 0 ∨ p.domainLength = 0 then .error .emptyString
    else if p.domainLength ≠ p.domain.length then .error .invalidLengthField
    else if p.domainLength > MAX_STRING_LENGTH then .error .stringTooLong
    else .ok ()
  else .ok ()

/-- Function `serializeResponse` of src/proto.ts: validate, then write
`setUint8(0, status)`, `setBigUint64(1, ttlHours, false)`,
`setUint32(9, domainLength, false)` and the domain bytes at offset
`RESPONSE_SIZE`. -/
def serializeResponse (p : Response) : Except ProtoErr (List Nat) :=
  match validateResponse p with
  | .error e => .error e
  | .ok _ =>
      .ok ([p.status % 2 ^ 8] ++ natToBE 8 (p.ttlHours % 2 ^ 64)
        ++ natToBE 4 (p.domainLength % 2 ^ 32) ++ p.domain)

/-- Function `deserializeResponse` of src/proto.ts: reject buffers shorter
than `RESPONSE_SIZE`, read `status`, `ttlHours`, `domainLength`, reject
buffers shorter than `RESPONSE_SIZE + domainLength`, slice the domain
bytes, rebuild through the constructor, validate. -/
def deserializeResponse (buf : List Nat) : Except ProtoErr Response :=
  if buf.length < RESPONSE_SIZE then .error .invalidResponseSize
  else
    let domainLength := beToNat (bufSlice buf 9 4)
    if buf.length < RESPONSE_SIZE + domainLength then .error .insufficientData
    else
      let p := Response.make (buf.getD 0 0) (beToNat (bufSlice buf 1 8))
        (bufSlice buf RESPONSE_SIZE domainLength)
      match validateResponse p with
      | .error e => .error e
      | .ok _ => .ok p

/-- Function `serializeMetrics` of src/proto.ts: no validation; write four
big-endian u64 fields at offsets 0, 8, 16, 24 and one u32 at offset 32. -/
def serializeMetrics (m : Metrics) : List Nat :=
  natToBE 8 (m.ingress % 2 ^ 64) ++ natToBE 8 (m.egress % 2 ^ 64)
    ++ natToBE 8 (m.uptime % 2 ^ 64) ++ natToBE 8 (m.connectionCount % 2 ^ 64)
    ++ natToBE 4 (m.activeConnections % 2 ^ 32)

/-- Function `deserializeMetrics` of src/proto.ts: reject buffers shorter
than `METRICS_SIZE`, read the five fields; no validation. -/
def deserializeMetrics (buf : List Nat) : Except ProtoErr Metrics :=
  if buf.length < METRICS_SIZE then .error .invalidMetricsSize
  else
    .ok ⟨beToNat (bufSlice buf 0 8), beToNat (bufSlice buf 8 8),
      beToNat (bufSlice buf 16 8), beToNat (bufSlice buf 24 8),
      beToNat (bufSlice buf 32 4)⟩

/-- Serialization followed by deserialization for headers, the round-trip
of claim C1. -/
def roundTripHeader (h : Header) : Except ProtoErr Header :=
  match serializeHeader h with
  | .error e => .error e
  | .ok b => deserializeHeader b

/-- Serialization followed by deserialization for requests. -/
def roundTripRequest (r : Request) : Except ProtoErr Request :=
  match serializeRequest r with
  | .error e => .error e
  | .ok b => deserializeRequest b

/-- Serialization followed by deserialization for responses. -/
def roundTripResponse (p : Response) : Except ProtoErr Response :=
  match serializeResponse p with
  | .error e => .error e
  | .ok b => deserializeResponse b

example : roundTripHeader (Header.make MessageType.Ack 420) =
    .ok (Header.make MessageType.Ack 420) := by decide

example : roundTripRequest (Request.make ProtoType.TCP [104, 101, 108, 108, 111]) =
    .ok (Request.make ProtoType.TCP [104, 101, 108, 108, 111]) := by decide

example : roundTripResponse (Response.make StatusCode.OK 60000 [116, 101]) =
    .ok (Response.make StatusCode.OK 60000 [116, 101]) := by decide

example : deserializeMetrics (serializeMetrics ⟨420, 69, 20000, 111, 222⟩) =
    .ok ⟨420, 69, 20000, 111, 222⟩ := by decide

example : roundTripHeader ⟨16, 4, 256, 0, 0⟩ = .ok ⟨16, 4, 0, 0, 0⟩ := by decide

/-- Fate of the promise returned by `Client.readN` in src/client.ts, over a
finite delivery history: `ok bytes leftover pend` means it resolved with
`bytes`, leaving `leftover` in the stream's internal buffer and `pend`
undelivered; `eofErr` means the end listener rejected it with the message
Stream ended before reading enough data; `pending` means it never settles —
no listener can fire again. -/
inductive ReadResult where
  | ok (bytes leftover : List Nat) (pend : List (List Nat))
  | eofErr
  | pending
deriving DecidableEq, Repr

/-- Method `Client.readN` of src/client.ts, modelled over the sequence of
chunks the transport delivers before end-of-stream.  `internal` is the
readable stream's internal buffer (initially empty).  Node's
`stream.read(k)` with `k` positive returns exactly `k` bytes when at least
`k` are buffered, `null` when fewer are buffered, and the whole remaining
buffer once the stream has ended; `stream.read(0)` always returns `null`
and consumes nothing.  The end event fires only once the internal buffer
has been fully consumed.  So for positive `n` the promise resolves at the
first moment `n` bytes are available, leaving every further byte unread;
if the stream ends short, the final read drains the remainder, the buffer
empties, the end event fires and the promise is rejected.  For `n = 0` the
while loop never consumes anything: the end event fires, rejecting the
promise, only when the stream ends with an empty buffer; with delivered
bytes still buffered no event can fire again and the promise stays pending
forever. -/
def readNProc (n : Nat) : List Nat → List (List Nat) → ReadResult
  | internal, [] =>
      if n ≠ 0 ∧ n ≤ internal.length then
        .ok (internal.take n) (internal.drop n) []
      else if n = 0 ∧ internal.length ≠ 0 then .pending
      else .eofErr
  | internal, c :: cs =>
      if n ≠ 0 ∧ n ≤ (internal ++ c).length then
        .ok ((internal ++ c).take n) ((internal ++ c).drop n) cs
      else readNProc n (internal ++ c) cs

/-- Entry point of `Client.readN`: the internal buffer starts empty. -/
def readN (n : Nat) (chunks : List (List Nat)) : ReadResult :=
  readNProc n [] chunks

example : readN 3 [[1, 2], [3, 4]] = .ok [1, 2, 3] [4] [] := by decide

example : readN 2 [[1, 2], [3]] = .ok [1, 2] [] [[3]] := by decide

example : readN 5 [[1, 2], [3]] = .eofErr := by decide

example : readN 0 [[97]] = .pending := by decide

example : readN 0 [] = .eofErr := by decide

/-- Error raised on the control path of `Client.handleConnection` after the
Response has been deserialized: the `default` branch of the status switch
throws with the message unexpected response status. -/
inductive ClientErr where
  | protocolError
deriving DecidableEq, Repr

/-- Outcome of the status switch in `Client.handleConnection`: either the
registration was rejected and reported to the user with a normal return, or
the tunnel was established. -/
inductive HandshakeOutcome where
  | rejectedReported
  | established
deriving DecidableEq, Repr

/-- Session state of the Client relevant to the handshake: the private
`domain` field, initialised to the empty string by the field initialiser. -/
structure ClientState where
  domain : List Nat
deriving DecidableEq, Repr

/-- Initial client state: `domain = ""`. -/
def initClient : ClientState := ⟨[]⟩

/-- Method `Client.getDomain` of src/client.ts. -/
def getDomain (s : ClientState) : List Nat := s.domain

/-- Status switch of `Client.handleConnection` (src/client.ts lines
173-188) together with the assignment `this.domain = response.domain` that
the OK branch falls through to: NameTaken and UnsupportedProto print a
report and return normally with the state unchanged; OK records the domain;
any other status throws. -/
def handleResponse (s : ClientState) (p : Response) :
    Except ClientErr (ClientState × HandshakeOutcome) :=
  if p.status = StatusCode.NameTaken then .ok (s, .rejectedReported)
  else if p.status = StatusCode.UnsupportedProto then .ok (s, .rejectedReported)
  else if p.status = StatusCode.OK then .ok (⟨p.domain⟩, .established)
  else .error .protocolError

/-- Action taken by `Client.onNewStream` on an inbound stream after its
header has been read, keyed by the header type. -/
inductive DispatchAction where
  | access
  | metricsLoop
  | endTunnel
  | closeStream
deriving DecidableEq, Repr

/-- Switch of `Client.onNewStream` (src/client.ts lines 217-237):
Access spawns the forwarder, Metrics enters the metrics loop, End closes
the stream and the session, and every other type hits the `default` branch,
which logs at debug level and closes the stream. -/
def dispatchType (t : Nat) : DispatchAction :=
  if t = MessageType.Access then .access
  else if t = MessageType.Metrics then .metricsLoop
  else if t = MessageType.End then .endTunnel
  else .closeStream

/-- State of one forwarder task (`Client.forwardStream` in src/client.ts):
the `isCleanedUp` guard, whether the inbound stream and the local
connection are still open, and how the task's promise has settled
(`none` while pending, `some none` resolved, `some (some e)` rejected with
error `e`). -/
structure FwdState where
  isCleanedUp : Bool
  streamOpen : Bool
  localOpen : Bool
  settled : Option (Option Nat)
deriving DecidableEq, Repr

/-- State of a forwarder before any terminating event. -/
def initFwd : FwdState := ⟨false, true, true, none⟩

/-- Closure `cleanup` of `Client.forwardStream`: a no-op when `isCleanedUp`
is already set; otherwise it sets the guard, closes the inbound stream
(`stream.close()`), and settles the promise — `reject(err)` when called
with an error, `resolve()` otherwise.  It does not touch the local
connection. -/
def cleanup (err : Option Nat) (s : FwdState) : FwdState :=
  if s.isCleanedUp then s
  else { s with isCleanedUp := true, streamOpen := false, settled := some err }

/-- Terminating events a forwarder observes, one per listener registered in
`Client.forwardStream`: close, end and error on the inbound stream, and
close, end and error on the local connection. -/
inductive FwdEvent where
  | streamClose
  | streamEnd
  | streamError (e : Nat)
  | localClose
  | localEnd
  | localError (e : Nat)
deriving DecidableEq, Repr

/-- Error an event hands to `cleanup`: the error listeners pass the error
through, every other listener calls `cleanup()` with no argument. -/
def eventErr : FwdEvent → Option Nat
  | .streamError e => some e
  | .localError e => some e
  | _ => none

/-- Listener wiring of `Client.forwardStream`: every one of the six events
invokes `cleanup`, the error events with their error.  A close event of the
local connection additionally witnesses that the local socket is down. -/
def applyEvent (s : FwdState) : FwdEvent → FwdState
  | .streamClose => cleanup none s
  | .streamEnd => cleanup none s
  | .streamError e => cleanup (some e) s
  | .localClose => cleanup none { s with localOpen := false }
  | .localEnd => cleanup none s
  | .localError e => cleanup (some e) s

/-- Forwarder evolution over a sequence of observed events. -/
def runEvents (s : FwdState) (evs : List FwdEvent) : FwdState :=
  evs.foldl applyEvent s

example : runEvents initFwd [.streamError 7, .localClose] =
    ⟨true, false, false, some (some 7)⟩ := by decide

example : (runEvents initFwd [.streamError 7]).localOpen = true := by decide

theorem natToBE_length (n v : Nat) : (natToBE n v).length = n := by
  induction n generalizing v with
  | zero => rfl
  | succ n ih => simp [natToBE, ih]

theorem beToNat_append_singleton (l : List Nat) (b : Nat) :
    beToNat (l ++ [b]) = beToNat l * 256 + b := by
  simp [beToNat, List.foldl_append]

theorem beToNat_natToBE {n v : Nat} (h : v < 256 ^ n) :
    beToNat (natToBE n v) = v := by
  induction n generalizing v with
  | zero =>
    simp only [pow_zero, Nat.lt_one_iff] at h
    simp [natToBE, beToNat, h]
  | succ n ih =>
    have hdiv : v / 256 < 256 ^ n := by
      apply Nat.div_lt_of_lt_mul
      calc v < 256 ^ (n + 1) := h
        _ = 256 * 256 ^ n := by ring
    rw [natToBE, beToNat_append_singleton, ih hdiv]
    omega

theorem deserializeHeader_bytes (v t f L r : Nat) (hL : L < 2 ^ 64) :
    deserializeHeader ([v, t, f] ++ natToBE 8 L ++ [r]) =
      match validateHeader ⟨v, t, f, L, r⟩ with
      | .error e => .error e
      | .ok _ => .ok ⟨v, t, f, L, r⟩ := by
  have hlen8 : (natToBE 8 L).length = 8 := natToBE_length 8 L
  have hbuf : ([v, t, f] ++ natToBE 8 L ++ [r]).length = 12 := by simp [hlen8]
  have hslice : bufSlice ([v, t, f] ++ natToBE 8 L ++ [r]) 3 8 = natToBE 8 L := by
    show ((v :: t :: f :: (natToBE 8 L ++ [r])).drop 3).take 8 = _
    simp only [List.drop_succ_cons, List.drop_zero]
    exact List.take_left' hlen8
  have hval : beToNat (bufSlice (v :: t :: f :: (natToBE 8 L ++ [r])) 3 8) = L := by
    rw [show bufSlice (v :: t :: f :: (natToBE 8 L ++ [r])) 3 8 =
        bufSlice ([v, t, f] ++ natToBE 8 L ++ [r]) 3 8 from rfl, hslice]
    exact beToNat_natToBE (by norm_num at hL ⊢; exact hL)
  have hres : (natToBE 8 L ++ [r]).getD 8 0 = r := by
    rw [List.getD_append_right _ _ _ _ (by omega)]
    simp [hlen8]
  simp only [deserializeHeader, hbuf, HEADER_SIZE]
  rw [if_neg (by omega)]
  simp only [List.cons_append, List.nil_append, List.getD_cons_zero,
    List.getD_cons_succ, hval, hres]

theorem deserializeRequest_bytes (p L : Nat) (name : List Nat)
    (hL32 : L < 2 ^ 32) (hLlen : L = name.length) :
    deserializeRequest ([p] ++ natToBE 4 L ++ name) =
      match validateRequest (Request.make p name) with
      | .error e => .error e
      | .ok _ => .ok (Request.make p name) := by
  have hlen4 : (natToBE 4 L).length = 4 := natToBE_length 4 L
  have hbuf : ([p] ++ natToBE 4 L ++ name).length = 5 + name.length := by
    simp [hlen4]; omega
  have hnl : beToNat (bufSlice (p :: (natToBE 4 L ++ name)) 1 4) = L := by
    show beToNat (((natToBE 4 L ++ name).drop 0).take 4) = L
    rw [List.drop_zero, List.take_left' hlen4]
    exact beToNat_natToBE (by norm_num at hL32 ⊢; exact hL32)
  have hname : bufSlice (p :: (natToBE 4 L ++ name)) 5 L = name := by
    show (((natToBE 4 L ++ name).drop 4)).take L = name
    rw [List.drop_left' hlen4, hLlen, List.take_length]
  simp only [deserializeRequest, REQUEST_SIZE, List.cons_append, List.nil_append]
  rw [if_neg (by rw [show (p :: (natToBE 4 L ++ name)).length =
    ([p] ++ natToBE 4 L ++ name).length from rfl, hbuf]; omega)]
  simp only [hnl]
  rw [if_neg (by rw [show (p :: (natToBE 4 L ++ name)).length =
    ([p] ++ natToBE 4 L ++ name).length from rfl, hbuf]; omega)]
  simp only [hname, List.getD_cons_zero]

theorem deserializeResponse_bytes (s T dl : Nat) (domain : List Nat)
    (hT : T < 2 ^ 64) (hdl : dl < 2 ^ 32) (hdlen : dl = domain.length) :
    deserializeResponse ([s] ++ (natToBE 8 T ++ (natToBE 4 dl ++ domain))) =
      match validateResponse (Response.make s T domain) with
      | .error e => .error e
      | .ok _ => .ok (Response.make s T domain) := by
  have hlen8 : (natToBE 8 T).length = 8 := natToBE_length 8 T
  have hlen4 : (natToBE 4 dl).length = 4 := natToBE_length 4 dl
  have httl : beToNat (bufSlice (s :: (natToBE 8 T ++ (natToBE 4 dl ++ domain))) 1 8) = T := by
    show beToNat (((natToBE 8 T ++ (natToBE 4 dl ++ domain)).drop 0).take 8) = T
    rw [List.drop_zero, List.take_left' hlen8]
    exact beToNat_natToBE (by norm_num at hT ⊢; exact hT)
  have hdl4 : beToNat (bufSlice (s :: (natToBE 8 T ++ (natToBE 4 dl ++ domain))) 9 4) = dl := by
    show beToNat (((natToBE 8 T ++ (natToBE 4 dl ++ domain)).drop 8).take 4) = dl
    rw [List.drop_left' hlen8, List.take_left' hlen4]
    exact beToNat_natToBE (by norm_num at hdl ⊢; exact hdl)
  have hdom : bufSlice (s :: (natToBE 8 T ++ (natToBE 4 dl ++ domain))) 13 dl = domain := by
    show ((natToBE 8 T ++ (natToBE 4 dl ++ domain)).drop 12).take dl = domain
    rw [show (12 : Nat) = 8 + 4 from rfl, ← List.drop_drop,
      List.drop_left' hlen8, List.drop_left' hlen4, hdlen, List.take_length]
  simp only [deserializeResponse, RESPONSE_SIZE, List.cons_append, List.nil_append]
  rw [if_neg (by simp only [List.length_cons, List.length_append, natToBE_length]; omega)]
  simp only [hdl4]
  rw [if_neg (by simp only [List.length_cons, List.length_append, natToBE_length]; omega)]
  simp only [httl, hdom, List.getD_cons_zero]

theorem deserializeMetrics_serializeMetrics (a b c d e : Nat)
    (h1 : a < 2 ^ 64) (h2 : b < 2 ^ 64) (h3 : c < 2 ^ 64)
    (h4 : d < 2 ^ 64) (h5 : e < 2 ^ 32) :
    deserializeMetrics (serializeMetrics ⟨a, b, c, d, e⟩) = .ok ⟨a, b, c, d, e⟩ := by
  have l8 : ∀ v : Nat, (natToBE 8 v).length = 8 := fun v => natToBE_length 8 v
  have be8 : ∀ v : Nat, v < 2 ^ 64 → beToNat (natToBE 8 v) = v := fun v hv =>
    beToNat_natToBE (by norm_num at hv ⊢; exact hv)
  have be4 : ∀ v : Nat, v < 2 ^ 32 → beToNat (natToBE 4 v) = v := fun v hv =>
    beToNat_natToBE (by norm_num at hv ⊢; exact hv)
  have hser : serializeMetrics ⟨a, b, c, d, e⟩ =
      natToBE 8 a ++ (natToBE 8 b ++ (natToBE 8 c ++ (natToBE 8 d ++ natToBE 4 e))) := by
    simp only [serializeMetrics, Nat.mod_eq_of_lt h1, Nat.mod_eq_of_lt h2,
      Nat.mod_eq_of_lt h3, Nat.mod_eq_of_lt h4, Nat.mod_eq_of_lt h5,
      List.append_assoc]
  rw [hser]
  have s0 : bufSlice (natToBE 8 a ++ (natToBE 8 b ++ (natToBE 8 c ++ (natToBE 8 d ++
      natToBE 4 e)))) 0 8 = natToBE 8 a := by
    simp only [bufSlice]
    rw [List.drop_zero, List.take_left' (l8 a)]
  have s8 : bufSlice (natToBE 8 a ++ (natToBE 8 b ++ (natToBE 8 c ++ (natToBE 8 d ++
      natToBE 4 e)))) 8 8 = natToBE 8 b := by
    simp only [bufSlice]
    rw [List.drop_left' (l8 a), List.take_left' (l8 b)]
  have s16 : bufSlice (natToBE 8 a ++ (natToBE 8 b ++ (natToBE 8 c ++ (natToBE 8 d ++
      natToBE 4 e)))) 16 8 = natToBE 8 c := by
    simp only [bufSlice]
    rw [show (16 : Nat) = 8 + 8 from rfl, ← List.drop_drop,
      List.drop_left' (l8 a), List.drop_left' (l8 b), List.take_left' (l8 c)]
  have s24 : bufSlice (natToBE 8 a ++ (natToBE 8 b ++ (natToBE 8 c ++ (natToBE 8 d ++
      natToBE 4 e)))) 24 8 = natToBE 8 d := by
    simp only [bufSlice]
    rw [show (24 : Nat) = 8 + 8 + 8 from rfl, ← List.drop_drop, ← List.drop_drop,
      List.drop_left' (l8 a), List.drop_left' (l8 b), List.drop_left' (l8 c),
      List.take_left' (l8 d)]
  have s32 : bufSlice (natToBE 8 a ++ (natToBE 8 b ++ (natToBE 8 c ++ (natToBE 8 d ++
      natToBE 4 e)))) 32 4 = natToBE 4 e := by
    simp only [bufSlice]
    rw [show (32 : Nat) = 8 + 8 + 8 + 8 from rfl, ← List.drop_drop,
      ← List.drop_drop, ← List.drop_drop,
      List.drop_left' (l8 a), List.drop_left' (l8 b), List.drop_left' (l8 c),
      List.drop_left' (l8 d), List.take_of_length_le (by rw [natToBE_length])]
  simp only [deserializeMetrics, METRICS_SIZE]
  rw [if_neg (by simp only [List.length_append, natToBE_length]; omega)]
  rw [s0, s8, s16, s24, s32, be8 a h1, be8 b h2, be8 c h3, be8 d h4, be4 e h5]

theorem validateHeader_ok_iff (h : Header) :
    validateHeader h = .ok () ↔
      h.version = VERSION ∧ h.length ≤ MAX_PAYLOAD_SIZE ∧ h.reserved = 0 := by
  unfold validateHeader
  split_ifs with h1 h2 h3
  · exact iff_of_false (by simp) (fun hh => h1 hh.1)
  · exact iff_of_false (by simp) (fun hh => absurd hh.2.1 (by omega))
  · exact iff_of_false (by simp) (fun hh => h3 hh.2.2)
  · exact iff_of_true rfl ⟨not_not.mp h1, by omega, not_not.mp h3⟩

theorem validateRequest_ok_iff (r : Request) :
    validateRequest r = .ok () ↔
      (r.proto = ProtoType.HTTP ∨ r.proto = ProtoType.TCP) ∧
      r.name.length ≠ 0 ∧ r.nameLength = r.name.length ∧
      r.nameLength ≤ MAX_STRING_LENGTH := by
  unfold validateRequest
  split_ifs with h1 h2 h3 h4
  · exact iff_of_false (by simp)
      (fun hh => hh.1.elim (fun hp => h1.1 hp) (fun hp => h1.2 hp))
  · exact iff_of_false (by simp)
      (fun hh => h2.elim (fun hl => hh.2.1 hl) (fun hl => hh.2.1 (hh.2.2.1 ▸ hl)))
  · exact iff_of_false (by simp) (fun hh => h3 hh.2.2.1)
  · exact iff_of_false (by simp) (fun hh => absurd hh.2.2.2 (by omega))
  · refine iff_of_true rfl ⟨?_, ?_, not_not.mp h3, by omega⟩
    · rcases Decidable.not_and_iff_or_not.mp h1 with hp | hp
      · exact Or.inl (not_not.mp hp)
      · exact Or.inr (not_not.mp hp)
    · exact fun hl => h2 (Or.inl hl)

theorem validateResponse_ok_iff (p : Response) :
    validateResponse p = .ok () ↔
      (p.status = StatusCode.OK ∧ p.domain.length ≠ 0 ∧
        p.domainLength = p.domain.length ∧ p.domainLength ≤ MAX_STRING_LENGTH)
      ∨ p.status = StatusCode.NameTaken ∨ p.status = StatusCode.UnsupportedProto := by
  unfold validateResponse
  split_ifs with h1 h2 h3 h4 h5
  · refine iff_of_false (by simp) ?_
    rintro (⟨hs, _⟩ | hs | hs)
    · exact h1.1 hs
    · exact h1.2.1 hs
    · exact h1.2.2 hs
  · refine iff_of_false (by simp) ?_
    rintro (⟨_, hne, hlen, _⟩ | hs | hs)
    · exact h3.elim (fun hl => hne hl) (fun hl => hne (hlen ▸ hl))
    · exact absurd h2 (by rw [hs]; norm_num [StatusCode.OK, StatusCode.NameTaken])
    · exact absurd h2 (by rw [hs]; norm_num [StatusCode.OK, StatusCode.UnsupportedProto])
  · refine iff_of_false (by simp) ?_
    rintro (⟨_, _, hlen, _⟩ | hs | hs)
    · exact h4 hlen
    · exact absurd h2 (by rw [hs]; norm_num [StatusCode.OK, StatusCode.NameTaken])
    · exact absurd h2 (by rw [hs]; norm_num [StatusCode.OK, StatusCode.UnsupportedProto])
  · refine iff_of_false (by simp) ?_
    rintro (⟨_, _, _, hle⟩ | hs | hs)
    · exact absurd hle (by omega)
    · exact absurd h2 (by rw [hs]; norm_num [StatusCode.OK, StatusCode.NameTaken])
    · exact absurd h2 (by rw [hs]; norm_num [StatusCode.OK, StatusCode.UnsupportedProto])
  · refine iff_of_true rfl (Or.inl ⟨h2, ?_, not_not.mp h4, by omega⟩)
    exact fun hl => h3 (Or.inl hl)
  · refine iff_of_true rfl ?_
    rcases Decidable.not_and_iff_or_not.mp h1 with hp | hp
    · exact absurd (not_not.mp hp) h2
    · rcases Decidable.not_and_iff_or_not.mp hp with hq | hq
      · exact Or.inr (Or.inl (not_not.mp hq))
      · exact Or.inr (Or.inr (not_not.mp hq))

/-- C1, counterexample: a Header whose `flags` field is `256` passes
`validateHeader` (the validator bounds neither `flags` nor `type`), yet
serializing truncates the byte to `0`, so deserializing the serialization
does not give the value back.  The claim as stated — round-trip for every
value that passes its validator — is therefore false. -/
theorem claim_C1_counterexample :
    validateHeader ⟨16, 4, 256, 0, 0⟩ = .ok () ∧
      roundTripHeader ⟨16, 4, 256, 0, 0⟩ ≠ .ok ⟨16, 4, 256, 0, 0⟩ := by
  constructor
  · decide
  · decide

/-- C1 (amended): deserializing the serialization gives the value back for
every valid value whose numeric fields also fit the wire widths the
serializer truncates to: for a Header, `type` and `flags` below `2 ^ 8`
(the validator already pins `version`, `length` and `reserved`); for a
Request, passing the validator suffices; for a Response, `ttlHours` below
`2 ^ 64` and a `domainLength` below `2 ^ 32` that agrees with the domain
(the validator checks these only when the status is OK); for a Metrics
value (which has no validator), every field below its wire width. -/
theorem claim_C1_roundTrip :
    (∀ h : Header, h.type < 2 ^ 8 → h.flags < 2 ^ 8 →
      validateHeader h = .ok () → roundTripHeader h = .ok h)
    ∧ (∀ r : Request, validateRequest r = .ok () → roundTripRequest r = .ok r)
    ∧ (∀ p : Response, p.ttlHours < 2 ^ 64 → p.domainLength < 2 ^ 32 →
        p.domainLength = p.domain.length →
        validateResponse p = .ok () → roundTripResponse p = .ok p)
    ∧ (∀ m : Metrics, m.ingress < 2 ^ 64 → m.egress < 2 ^ 64 → m.uptime < 2 ^ 64 →
        m.connectionCount < 2 ^ 64 → m.activeConnections < 2 ^ 32 →
        deserializeMetrics (serializeMetrics m) = .ok m) := by
  refine ⟨?_, ?_, ?_, ?_⟩
  · intro h ht hf hv
    obtain ⟨hver, hlen, hres⟩ := (validateHeader_ok_iff h).mp hv
    have e1 : h.version % 2 ^ 8 = h.version :=
      Nat.mod_eq_of_lt (by rw [hver]; norm_num [VERSION])
    have e2 : h.type % 2 ^ 8 = h.type := Nat.mod_eq_of_lt ht
    have e3 : h.flags % 2 ^ 8 = h.flags := Nat.mod_eq_of_lt hf
    have hlen64 : h.length < 2 ^ 64 :=
      lt_of_le_of_lt hlen (by norm_num [MAX_PAYLOAD_SIZE])
    have e4 : h.length % 2 ^ 64 = h.length := Nat.mod_eq_of_lt hlen64
    have e5 : h.reserved % 2 ^ 8 = h.reserved :=
      Nat.mod_eq_of_lt (by rw [hres]; norm_num)
    simp only [roundTripHeader, serializeHeader, hv, serializeHeaderBytes,
      e1, e2, e3, e4, e5]
    rw [deserializeHeader_bytes h.version h.type h.flags h.length h.reserved hlen64]
    rw [show (⟨h.version, h.type, h.flags, h.length, h.reserved⟩ : Header) = h from rfl,
      hv]
  · intro r hv
    obtain ⟨hp, hn0, hlen, hmax⟩ := (validateRequest_ok_iff r).mp hv
    have e1 : r.proto % 2 ^ 8 = r.proto := Nat.mod_eq_of_lt (by
      rcases hp with hp | hp <;> rw [hp] <;> norm_num [ProtoType.HTTP, ProtoType.TCP])
    have hl32 : r.nameLength < 2 ^ 32 :=
      lt_of_le_of_lt hmax (by norm_num [MAX_STRING_LENGTH])
    have e2 : r.nameLength % 2 ^ 32 = r.nameLength := Nat.mod_eq_of_lt hl32
    simp only [roundTripRequest, serializeRequest, hv, e1, e2]
    rw [deserializeRequest_bytes r.proto r.nameLength r.name hl32 hlen]
    have hmk : Request.make r.proto r.name = r := by
      obtain ⟨pr, nl, nm⟩ := r
      simp only [Request.make, Request.mk.injEq]
      exact ⟨trivial, hlen.symm, trivial⟩
    rw [hmk, hv]
  · intro p httl hdl32 hdlen hv
    have hs256 : p.status < 2 ^ 8 := by
      rcases (validateResponse_ok_iff p).mp hv with ⟨hs, _⟩ | hs | hs <;>
        rw [hs] <;>
        norm_num [StatusCode.OK, StatusCode.NameTaken, StatusCode.UnsupportedProto]
    have e1 : p.status % 2 ^ 8 = p.status := Nat.mod_eq_of_lt hs256
    have e2 : p.ttlHours % 2 ^ 64 = p.ttlHours := Nat.mod_eq_of_lt httl
    have e3 : p.domainLength % 2 ^ 32 = p.domainLength := Nat.mod_eq_of_lt hdl32
    simp only [roundTripResponse, serializeResponse, hv, e1, e2, e3,
      List.append_assoc]
    rw [deserializeResponse_bytes p.status p.ttlHours p.domainLength p.domain
      httl hdl32 hdlen]
    have hmk : Response.make p.status p.ttlHours p.domain = p := by
      obtain ⟨st, tt, dl, dm⟩ := p
      simp only [Response.make, Response.mk.injEq]
      exact ⟨trivial, trivial, hdlen.symm, trivial⟩
    rw [hmk, hv]
  · intro m h1 h2 h3 h4 h5
    obtain ⟨a, b, c, d, e⟩ := m
    exact deserializeMetrics_serializeMetrics a b c d e h1 h2 h3 h4 h5

/-- C1, witness: the amended round-trip law evaluated at the concrete
values the repository's own unit tests use. -/
theorem claim_C1_roundTrip_witness :
    roundTripHeader (Header.make MessageType.Ack 420) =
      .ok (Header.make MessageType.Ack 420)
    ∧ roundTripRequest (Request.make ProtoType.TCP [104, 101, 108, 108, 111]) =
      .ok (Request.make ProtoType.TCP [104, 101, 108, 108, 111])
    ∧ roundTripResponse (Response.make StatusCode.OK 60000 [116, 101]) =
      .ok (Response.make StatusCode.OK 60000 [116, 101])
    ∧ deserializeMetrics (serializeMetrics ⟨420, 69, 20000, 111, 222⟩) =
      .ok ⟨420, 69, 20000, 111, 222⟩ :=
  ⟨claim_C1_roundTrip.1 _ (by decide) (by decide) (by decide),
    claim_C1_roundTrip.2.1 _ (by decide),
    claim_C1_roundTrip.2.2.1 _ (by decide) (by decide) (by decide) (by decide),
    claim_C1_roundTrip.2.2.2 _ (by decide) (by decide) (by decide) (by decide)
      (by decide)⟩

/-- C2, counterexample: the checks of `validateHeader` run in source order —
version, then length, then reserved — so serializing a header whose
`version` is wrong and whose `reserved` is non-zero fails with
InvalidVersion, not with ReservedNonZero as the claim states. -/
theorem claim_C2_counterexample :
    serializeHeader ⟨0, 4, 0, 0, 1⟩ = .error .invalidVersion ∧
      serializeHeader ⟨0, 4, 0, 0, 1⟩ ≠ .error .reservedNonZero := by
  constructor
  · decide
  · decide

/-- C2 (amended): `serializeHeader` fails exactly when a header invariant is
violated, and `deserializeHeader` of a 12-byte buffer fails exactly when the
encoded fields violate an invariant; the error reported is the one of the
first violated check in source order (version, length, reserved).  In
particular `deserializeHeader` of 12 bytes whose first byte is not `0x10`
fails with InvalidVersion, and `serializeHeader` of a header with valid
version and length and non-zero reserved fails with ReservedNonZero. -/
theorem claim_C2_headerValidation :
    (∀ h : Header, (∃ e, serializeHeader h = .error e) ↔
      (h.version ≠ VERSION ∨ h.length > MAX_PAYLOAD_SIZE ∨ h.reserved ≠ 0))
    ∧ (∀ b : List Nat, b.length = HEADER_SIZE →
        ((∃ e, deserializeHeader b = .error e) ↔
          (b.getD 0 0 ≠ VERSION ∨ beToNat (bufSlice b 3 8) > MAX_PAYLOAD_SIZE ∨
            b.getD 11 0 ≠ 0)))
    ∧ (∀ b : List Nat, b.length = HEADER_SIZE → b.getD 0 0 ≠ VERSION →
        deserializeHeader b = .error .invalidVersion)
    ∧ (∀ h : Header, h.version = VERSION → h.length ≤ MAX_PAYLOAD_SIZE →
        h.reserved ≠ 0 → serializeHeader h = .error .reservedNonZero) := by
  refine ⟨?_, ?_, ?_, ?_⟩
  · intro h
    unfold serializeHeader validateHeader
    split_ifs with h1 h2 h3
    · exact iff_of_true ⟨_, rfl⟩ (Or.inl h1)
    · exact iff_of_true ⟨_, rfl⟩ (Or.inr (Or.inl h2))
    · exact iff_of_true ⟨_, rfl⟩ (Or.inr (Or.inr h3))
    · refine iff_of_false (by simp) ?_
      rintro (hh | hh | hh)
      · exact h1 hh
      · exact h2 hh
      · exact h3 hh
  · intro b hb
    simp only [HEADER_SIZE] at hb
    simp only [deserializeHeader, HEADER_SIZE]
    rw [if_neg (by omega)]
    unfold validateHeader
    split_ifs with h1 h2 h3
    · exact iff_of_true ⟨_, rfl⟩ (Or.inl h1)
    · exact iff_of_true ⟨_, rfl⟩ (Or.inr (Or.inl h2))
    · exact iff_of_true ⟨_, rfl⟩ (Or.inr (Or.inr h3))
    · refine iff_of_false (by simp) ?_
      rintro (hh | hh | hh)
      · exact h1 hh
      · exact h2 hh
      · exact h3 hh
  · intro b hb h0
    simp only [HEADER_SIZE] at hb
    simp only [deserializeHeader, HEADER_SIZE]
    rw [if_neg (by omega)]
    unfold validateHeader
    rw [if_pos h0]
  · intro h h1 h2 h3
    unfold serializeHeader validateHeader
    rw [if_neg (by simp [h1]), if_neg (by omega), if_pos h3]

/-- C2, witness: the amended law at concrete inputs — a 12-byte buffer with
first byte `0`, and a header with `reserved = 1` and otherwise valid
fields. -/
theorem claim_C2_headerValidation_witness :
    deserializeHeader [0, 4, 0, 0, 0, 0, 0, 0, 0, 0, 0, 0] = .error .invalidVersion
    ∧ serializeHeader ⟨16, 4, 0, 0, 1⟩ = .error .reservedNonZero :=
  ⟨claim_C2_headerValidation.2.2.1 _ (by decide) (by decide),
    claim_C2_headerValidation.2.2.2 _ (by decide) (by decide) (by decide)⟩

theorem lor_mod_lor_self (a f : Nat) :
    ((a % 2 ^ 32 ||| f % 2 ^ 32) % 2 ^ 32) ||| f % 2 ^ 32 =
      a % 2 ^ 32 ||| f % 2 ^ 32 := by
  apply Nat.eq_of_testBit_eq
  intro i
  simp only [Nat.testBit_lor, Nat.testBit_mod_two_pow]
  by_cases hi : i < 32
  · simp [hi, Bool.or_assoc]
  · simp [hi]

theorem land_not_restore (a f : Nat) (ha : a < 2 ^ 32) (_hf : f < 2 ^ 32)
    (h0 : a &&& f = 0) :
    ((a ||| f) % 2 ^ 32) &&& (f ^^^ (2 ^ 32 - 1)) = a := by
  have hb : ∀ i, a.testBit i = true → f.testBit i = false := by
    intro i hai
    by_contra hfi
    have hft : f.testBit i = true := by
      cases hx : f.testBit i
      · exact absurd hx hfi
      · rfl
    have : (a &&& f).testBit i = true := by
      rw [Nat.testBit_land, hai, hft]
      rfl
    rw [h0, Nat.zero_testBit] at this
    exact Bool.false_ne_true this
  apply Nat.eq_of_testBit_eq
  intro i
  simp only [Nat.testBit_land, Nat.testBit_mod_two_pow, Nat.testBit_lor,
    Nat.testBit_xor, Nat.testBit_two_pow_sub_one]
  by_cases hi : i < 32
  · cases hft : f.testBit i
    · cases hat : a.testBit i <;> simp [hi, hft, hat]
    · have hat : a.testBit i = false := by
        cases hx : a.testBit i
        · rfl
        · exact absurd (hb i hx) (by simp [hft])
      simp [hi, hft, hat]
  · have hat : a.testBit i = false :=
      Nat.testBit_lt_two_pow
        (lt_of_lt_of_le ha (Nat.pow_le_pow_right (by norm_num) (by omega)))
    simp [hi, hat]

/-- C3, counterexample: when a flag bit is already set, `clearFlag` after
`setFlag` clears it, so the flags field does not return to its prior state;
starting from `flags = 1`, set-then-clear of flag `1` leaves `0`. -/
theorem claim_C3_counterexample :
    (((⟨16, 4, 1, 0, 0⟩ : Header).setFlag 1).clearFlag 1).flags ≠
      (⟨16, 4, 1, 0, 0⟩ : Header).flags := by
  decide

/-- C3 (amended): `setFlag` is idempotent for every header and mask;
`clearFlag` after `setFlag` restores the header provided the header did not
already have any bit of the mask set (`hasFlag` false beforehand) and flags
and mask are 32-bit values; and `hasFlag` agrees with the bitmask test. -/
theorem claim_C3_flagAlgebra :
    (∀ (h : Header) (f : Nat), (h.setFlag f).setFlag f = h.setFlag f)
    ∧ (∀ (h : Header) (f : Nat), h.flags < 2 ^ 32 → f < 2 ^ 32 →
        h.hasFlag f = false → (h.setFlag f).clearFlag f = h)
    ∧ (∀ (h : Header) (f : Nat), h.flags < 2 ^ 32 → f < 2 ^ 32 →
        (h.hasFlag f = true ↔ h.flags &&& f ≠ 0)) := by
  refine ⟨?_, ?_, ?_⟩
  · intro h f
    obtain ⟨v, t, fl, L, r⟩ := h
    simp only [Header.setFlag, Header.mk.injEq, and_true, true_and]
    exact lor_mod_lor_self fl f
  · intro h f hfl hf hno
    obtain ⟨v, t, fl, L, r⟩ := h
    simp only [Header.hasFlag, bne_eq_false_iff_eq] at hno
    simp only at hfl
    rw [Nat.mod_eq_of_lt hfl, Nat.mod_eq_of_lt hf] at hno
    simp only [Header.setFlag, Header.clearFlag, Header.mk.injEq, and_true,
      true_and]
    rw [Nat.mod_eq_of_lt hfl, Nat.mod_eq_of_lt hf]
    exact land_not_restore fl f hfl hf hno
  · intro h f hfl hf
    simp only [Header.hasFlag, Nat.mod_eq_of_lt hfl, Nat.mod_eq_of_lt hf,
      bne_iff_ne]

/-- C3, witness: the amended flag algebra at the values of the repository
flag test — a fresh Ack header and the METRICS flag. -/
theorem claim_C3_flagAlgebra_witness :
    ((Header.make MessageType.Ack 0).setFlag FLAG_METRICS).clearFlag FLAG_METRICS =
      Header.make MessageType.Ack 0 :=
  claim_C3_flagAlgebra.2.1 (Header.make MessageType.Ack 0) FLAG_METRICS
    (by decide) (by decide) (by decide)

theorem readNProc_ok (n : Nat) (hn : 1 ≤ n) :
    ∀ (cs : List (List Nat)) (internal : List Nat), internal.length < n →
      n ≤ internal.length + cs.flatten.length →
      ∃ rest pend, readNProc n internal cs =
          .ok ((internal ++ cs.flatten).take n) rest pend ∧
        rest ++ pend.flatten = (internal ++ cs.flatten).drop n := by
  intro cs
  induction cs with
  | nil =>
    intro internal h1 h2
    simp only [List.flatten_nil, List.length_nil] at h2
    omega
  | cons c cs ih =>
    intro internal h1 h2
    by_cases hg : n ≤ (internal ++ c).length
    · refine ⟨(internal ++ c).drop n, cs, ?_, ?_⟩
      · simp only [readNProc]
        rw [if_pos ⟨by omega, hg⟩, List.flatten_cons, ← List.append_assoc,
          List.take_append_of_le_length hg]
      · rw [List.flatten_cons, ← List.append_assoc,
          List.drop_append_of_le_length hg]
    · push_neg at hg
      have h2' : n ≤ (internal ++ c).length + cs.flatten.length := by
        simp only [List.flatten_cons, List.length_append] at h2 ⊢
        omega
      obtain ⟨rest, pend, heq, hcat⟩ := ih (internal ++ c) hg h2'
      refine ⟨rest, pend, ?_, ?_⟩
      · simp only [readNProc]
        rw [if_neg (by push_neg; intro _; omega), List.flatten_cons,
          ← List.append_assoc]
        exact heq
      · rw [List.flatten_cons, ← List.append_assoc]
        exact hcat

theorem readNProc_eof (n : Nat) :
    ∀ (cs : List (List Nat)) (internal : List Nat),
      internal.length + cs.flatten.length < n →
      readNProc n internal cs = .eofErr := by
  intro cs
  induction cs with
  | nil =>
    intro internal h
    simp only [List.flatten_nil, List.length_nil] at h
    simp only [readNProc]
    rw [if_neg (by push_neg; intro _; omega), if_neg (by push_neg; intro h0; omega)]
  | cons c cs ih =>
    intro internal h
    simp only [List.flatten_cons, List.length_append] at h
    simp only [readNProc]
    rw [if_neg (by push_neg; intro _; simp only [List.length_append]; omega)]
    exact ih (internal ++ c) (by simp only [List.length_append]; omega)

theorem readNProc_zero_pending :
    ∀ (cs : List (List Nat)) (internal : List Nat),
      (internal ++ cs.flatten).length ≠ 0 →
      readNProc 0 internal cs = .pending := by
  intro cs
  induction cs with
  | nil =>
    intro internal h
    simp only [List.flatten_nil, List.append_nil, List.length_nil] at h
    simp only [readNProc]
    rw [if_neg (by push_neg; intro h0; omega), if_pos (by refine ⟨?_, h⟩; trivial)]
  | cons c cs ih =>
    intro internal h
    simp only [readNProc]
    rw [if_neg (by push_neg; intro h0; omega)]
    exact ih (internal ++ c)
      (by simp only [List.flatten_cons, ← List.append_assoc] at h ⊢; exact h)

/-- C4, counterexample: `readN` with `n = 0` never settles once a byte has
been delivered — `stream.read(0)` always returns null and consumes
nothing, so the end event, which Node fires only after the internal buffer
has been fully consumed, can never fire — and the promise of the first
`0` bytes is never fulfilled. -/
theorem claim_C4_counterexample :
    readN 0 [[97]] = .pending := by decide

/-- C4 (amended): for every `N ≥ 1` and every split of at least `N` bytes
into chunks, `readN` returns exactly the first `N` delivered bytes, and
everything beyond them — the bytes left in the internal buffer plus the
chunks never read — is exactly the rest of the stream, so no more than `N`
bytes are consumed; if the stream ends after fewer than `N` bytes, `readN`
fails with UnexpectedEof.  For `N = 0` the promise never resolves: it
stays pending forever whenever any byte was delivered, and is rejected at
end-of-stream only when the stream carried no bytes at all. -/
theorem claim_C4_readN :
    (∀ (chunks : List (List Nat)) (n : Nat), 1 ≤ n → n ≤ chunks.flatten.length →
      ∃ rest pend, readN n chunks = .ok (chunks.flatten.take n) rest pend ∧
        rest ++ pend.flatten = chunks.flatten.drop n)
    ∧ (∀ (chunks : List (List Nat)) (n : Nat), chunks.flatten.length < n →
        readN n chunks = .eofErr)
    ∧ (∀ chunks : List (List Nat), chunks.flatten.length ≠ 0 →
        readN 0 chunks = .pending)
    ∧ readN 0 [] = .eofErr := by
  refine ⟨?_, ?_, ?_, by decide⟩
  · intro chunks n hn hle
    have h := readNProc_ok n hn chunks [] (by simpa using hn)
      (by simpa using hle)
    simpa only [readN, List.nil_append] using h
  · intro chunks n h
    exact readNProc_eof n chunks [] (by simpa using h)
  · intro chunks h
    exact readNProc_zero_pending chunks [] (by simpa using h)

/-- C4, witness: the amended law at a concrete split — three bytes in two
chunks read with `N = 2`, with `N = 5`, and with `N = 0`. -/
theorem claim_C4_readN_witness :
    (∃ rest pend, readN 2 [[1], [2, 3]] = .ok ([[1], [2, 3]].flatten.take 2) rest pend ∧
      rest ++ pend.flatten = [[1], [2, 3]].flatten.drop 2)
    ∧ readN 5 [[1], [2, 3]] = .eofErr
    ∧ readN 0 [[1], [2, 3]] = .pending :=
  ⟨claim_C4_readN.1 [[1], [2, 3]] 2 (by decide) (by decide),
    claim_C4_readN.2.1 [[1], [2, 3]] 5 (by decide),
    claim_C4_readN.2.2.1 [[1], [2, 3]] (by decide)⟩

/-- C5: response validation is conditional on the status.  For a status
other than OK the domain checks are skipped entirely: validation succeeds
exactly when the status is NameTaken or UnsupportedProto, whatever the
domain fields hold; a NameTaken response with empty domain passes
validation, serializes and deserializes back to itself; for status OK the
domain checks apply and an empty domain is rejected with the empty-string
error, both in `validateResponse` and through `serializeResponse`. -/
theorem claim_C5_responseValidation :
    (∀ p : Response, p.status ≠ StatusCode.OK →
      (validateResponse p = .ok () ↔
        (p.status = StatusCode.NameTaken ∨ p.status = StatusCode.UnsupportedProto)))
    ∧ (∀ p : Response, p.status = StatusCode.OK → p.domain = [] →
        validateResponse p = .error .emptyString)
    ∧ (∀ p : Response, p.status = StatusCode.OK →
        (validateResponse p = .ok () ↔
          (p.domain.length ≠ 0 ∧ p.domainLength = p.domain.length ∧
            p.domainLength ≤ MAX_STRING_LENGTH)))
    ∧ (∀ ttl : Nat, ttl < 2 ^ 64 →
        roundTripResponse (Response.make StatusCode.NameTaken ttl []) =
          .ok (Response.make StatusCode.NameTaken ttl []))
    ∧ (∀ ttl : Nat, serializeResponse (Response.make StatusCode.OK ttl []) =
        .error .emptyString) := by
  refine ⟨?_, ?_, ?_, ?_, ?_⟩
  · intro p hs
    rw [validateResponse_ok_iff]
    constructor
    · rintro (⟨hok, _⟩ | hh | hh)
      · exact absurd hok hs
      · exact Or.inl hh
      · exact Or.inr hh
    · rintro (hh | hh)
      · exact Or.inr (Or.inl hh)
      · exact Or.inr (Or.inr hh)
  · intro p hs hd
    unfold validateResponse
    rw [if_neg (by rw [hs]; simp), if_pos hs, if_pos (Or.inl (by rw [hd]; rfl))]
  · intro p hs
    rw [validateResponse_ok_iff]
    have h1 : p.status ≠ StatusCode.NameTaken := by
      rw [hs]; decide
    have h2 : p.status ≠ StatusCode.UnsupportedProto := by
      rw [hs]; decide
    constructor
    · rintro (⟨_, hh⟩ | hh | hh)
      · exact hh
      · exact absurd hh h1
      · exact absurd hh h2
    · intro hh
      exact Or.inl ⟨hs, hh⟩
  · intro ttl httl
    have hv : validateResponse (Response.make StatusCode.NameTaken ttl []) = .ok () := by
      unfold validateResponse Response.make
      simp [StatusCode.OK, StatusCode.NameTaken, StatusCode.UnsupportedProto]
    have httl' : ttl < 18446744073709551616 := by
      have : (2 : Nat) ^ 64 = 18446744073709551616 := by norm_num
      omega
    have harg : [(Response.make StatusCode.NameTaken ttl []).status % 2 ^ 8] ++
        natToBE 8 ((Response.make StatusCode.NameTaken ttl []).ttlHours % 2 ^ 64) ++
        natToBE 4 ((Response.make StatusCode.NameTaken ttl []).domainLength % 2 ^ 32) ++
        (Response.make StatusCode.NameTaken ttl []).domain =
        [StatusCode.NameTaken] ++ (natToBE 8 ttl ++ (natToBE 4 0 ++ [])) := by
      simp [Response.make, StatusCode.NameTaken, Nat.mod_eq_of_lt httl']
    simp only [roundTripResponse, serializeResponse, hv, harg]
    rw [deserializeResponse_bytes StatusCode.NameTaken ttl 0 [] httl (by decide) rfl]
    rw [hv]
  · intro ttl
    unfold serializeResponse validateResponse Response.make
    simp [StatusCode.OK, StatusCode.NameTaken, StatusCode.UnsupportedProto]

/-- C5, witness: the conditional validation at concrete responses — a
NameTaken response with empty domain is accepted and round-trips, an OK
response with empty domain is rejected. -/
theorem claim_C5_responseValidation_witness :
    (validateResponse (Response.make StatusCode.NameTaken 0 []) = .ok () ↔
      (Response.make StatusCode.NameTaken 0 []).status = StatusCode.NameTaken ∨
      (Response.make StatusCode.NameTaken 0 []).status = StatusCode.UnsupportedProto)
    ∧ roundTripResponse (Response.make StatusCode.NameTaken 0 []) =
        .ok (Response.make StatusCode.NameTaken 0 [])
    ∧ serializeResponse (Response.make StatusCode.OK 0 []) = .error .emptyString :=
  ⟨claim_C5_responseValidation.1 _ (by decide),
    claim_C5_responseValidation.2.2.2.1 0 (by decide),
    claim_C5_responseValidation.2.2.2.2 0⟩

/-- C6: the status switch of the handshake — NameTaken and UnsupportedProto
report to the user and return normally with the session state unchanged
(the domain is not assigned), while any status outside OK, NameTaken,
UnsupportedProto raises the protocol error that makes `run()` fail. -/
theorem claim_C6_handshakeStatus :
    (∀ (s : ClientState) (p : Response),
      p.status = StatusCode.NameTaken ∨ p.status = StatusCode.UnsupportedProto →
      handleResponse s p = .ok (s, .rejectedReported))
    ∧ (∀ (s : ClientState) (p : Response),
        p.status ≠ StatusCode.OK → p.status ≠ StatusCode.NameTaken →
        p.status ≠ StatusCode.UnsupportedProto →
        handleResponse s p = .error .protocolError) := by
  constructor
  · rintro s p (hs | hs)
    · unfold handleResponse
      rw [if_pos hs]
    · unfold handleResponse
      rw [if_neg (by rw [hs]; decide), if_pos hs]
  · intro s p h1 h2 h3
    unfold handleResponse
    rw [if_neg h2, if_neg h3, if_neg h1]

/-- C6, witness: the switch at concrete responses — NameTaken returns
normally with the state unchanged, status `9` raises the protocol error. -/
theorem claim_C6_handshakeStatus_witness :
    handleResponse initClient (Response.make StatusCode.NameTaken 0 []) =
      .ok (initClient, .rejectedReported)
    ∧ handleResponse initClient ⟨9, 0, 0, []⟩ = .error .protocolError :=
  ⟨claim_C6_handshakeStatus.1 initClient _ (Or.inl (by decide)),
    claim_C6_handshakeStatus.2 initClient _ (by decide) (by decide) (by decide)⟩

theorem applyEvent_cleaned (s : FwdState) (ev : FwdEvent)
    (h : s.isCleanedUp = true) :
    (applyEvent s ev).isCleanedUp = true ∧
      (applyEvent s ev).settled = s.settled ∧
      (applyEvent s ev).streamOpen = s.streamOpen := by
  cases ev <;> simp [applyEvent, cleanup, h]

theorem runEvents_cleaned (evs : List FwdEvent) :
    ∀ s : FwdState, s.isCleanedUp = true →
      (runEvents s evs).isCleanedUp = true ∧
        (runEvents s evs).settled = s.settled ∧
        (runEvents s evs).streamOpen = s.streamOpen := by
  induction evs with
  | nil => intro s h; exact ⟨h, rfl, rfl⟩
  | cons ev evs ih =>
    intro s h
    obtain ⟨h1, h2, h3⟩ := applyEvent_cleaned s ev h
    obtain ⟨g1, g2, g3⟩ := ih (applyEvent s ev) h1
    exact ⟨g1, g2.trans h2, g3.trans h3⟩

/-- C7, counterexample: `cleanup` in `forwardStream` closes only the inbound
stream and settles the promise; it never closes the local connection.  After
a stream error the cleanup has run, yet the local connection is still open,
so the two halves are not torn down together as the claim states. -/
theorem claim_C7_counterexample :
    (runEvents initFwd [.streamError 7]).isCleanedUp = true ∧
      (runEvents initFwd [.streamError 7]).localOpen = true := by
  decide

/-- C7 (amended): on any of the six terminating events the forwarder runs
`cleanup` exactly once — `cleanup` is idempotent and later events change
neither the settled result nor the stream state — `cleanup` closes the
inbound stream, and the task settles with the first observed event, errors
winning through their event; but `cleanup` leaves the local connection
untouched, so that half is not closed by the forwarder itself. -/
theorem claim_C7_forwarder :
    (∀ (e1 e2 : Option Nat) (s : FwdState), cleanup e2 (cleanup e1 s) = cleanup e1 s)
    ∧ (∀ (e : Option Nat) (s : FwdState), (cleanup e s).localOpen = s.localOpen)
    ∧ (∀ (s : FwdState) (ev : FwdEvent), s.isCleanedUp = false →
        (applyEvent s ev).isCleanedUp = true ∧
          (applyEvent s ev).streamOpen = false ∧
          (applyEvent s ev).settled = some (eventErr ev))
    ∧ (∀ (ev : FwdEvent) (evs : List FwdEvent),
        (runEvents initFwd (ev :: evs)).settled = some (eventErr ev) ∧
          (runEvents initFwd (ev :: evs)).isCleanedUp = true ∧
          (runEvents initFwd (ev :: evs)).streamOpen = false) := by
  refine ⟨?_, ?_, ?_, ?_⟩
  · intro e1 e2 s
    unfold cleanup
    by_cases h : s.isCleanedUp
    · simp [h]
    · simp [h]
  · intro e s
    unfold cleanup
    by_cases h : s.isCleanedUp
    · simp [h]
    · simp [h]
  · intro s ev h
    cases ev <;> simp [applyEvent, cleanup, eventErr, h]
  · intro ev evs
    have h0 : (applyEvent initFwd ev).isCleanedUp = true ∧
        (applyEvent initFwd ev).streamOpen = false ∧
        (applyEvent initFwd ev).settled = some (eventErr ev) := by
      cases ev <;> simp [applyEvent, cleanup, eventErr, initFwd]
    obtain ⟨h1, h2, h3⟩ := h0
    obtain ⟨g1, g2, g3⟩ := runEvents_cleaned evs (applyEvent initFwd ev) h1
    refine ⟨?_, ?_, ?_⟩
    · show (runEvents (applyEvent initFwd ev) evs).settled = _
      rw [g2, h3]
    · exact g1
    · show (runEvents (applyEvent initFwd ev) evs).streamOpen = _
      rw [g3, h2]

/-- C7, witness: the amended cleanup law at a concrete state and event. -/
theorem claim_C7_forwarder_witness :
    (applyEvent initFwd .streamEnd).isCleanedUp = true ∧
      (applyEvent initFwd .streamEnd).streamOpen = false ∧
      (applyEvent initFwd .streamEnd).settled = some none :=
  claim_C7_forwarder.2.2.1 initFwd .streamEnd (by decide)

theorem getD_take (b : List Nat) (m i : Nat) (h : i < m) :
    (b.take m).getD i 0 = b.getD i 0 := by
  simp [List.getD_eq_getElem?_getD, List.getElem?_take, h]

theorem bufSlice_take (b : List Nat) (m off n : Nat) (h : off + n ≤ m) :
    bufSlice (b.take m) off n = bufSlice b off n := by
  unfold bufSlice
  rw [List.drop_take, List.take_take, min_eq_left (by omega)]

/-- C8: every deserializer ignores trailing bytes — on any buffer at least
as long as the size its length fields declare, it returns exactly what it
returns on the exact-size prefix (for the header the fixed 12 bytes, for a
request `REQUEST_SIZE` plus the encoded name length, for a response
`RESPONSE_SIZE` plus the encoded domain length, for metrics the fixed 36
bytes) — and a buffer strictly shorter than the declared size is rejected
with the corresponding size error. -/
theorem claim_C8_trailingBytes :
    (∀ b : List Nat, HEADER_SIZE ≤ b.length →
      deserializeHeader b = deserializeHeader (b.take HEADER_SIZE))
    ∧ (∀ b : List Nat, b.length < HEADER_SIZE →
        deserializeHeader b = .error .invalidHeaderSize)
    ∧ (∀ b : List Nat, REQUEST_SIZE + beToNat (bufSlice b 1 4) ≤ b.length →
        deserializeRequest b =
          deserializeRequest (b.take (REQUEST_SIZE + beToNat (bufSlice b 1 4))))
    ∧ (∀ b : List Nat, b.length < REQUEST_SIZE →
        deserializeRequest b = .error .invalidRequestSize)
    ∧ (∀ b : List Nat, REQUEST_SIZE ≤ b.length →
        b.length < REQUEST_SIZE + beToNat (bufSlice b 1 4) →
        deserializeRequest b = .error .insufficientData)
    ∧ (∀ b : List Nat, RESPONSE_SIZE + beToNat (bufSlice b 9 4) ≤ b.length →
        deserializeResponse b =
          deserializeResponse (b.take (RESPONSE_SIZE + beToNat (bufSlice b 9 4))))
    ∧ (∀ b : List Nat, b.length < RESPONSE_SIZE →
        deserializeResponse b = .error .invalidResponseSize)
    ∧ (∀ b : List Nat, RESPONSE_SIZE ≤ b.length →
        b.length < RESPONSE_SIZE + beToNat (bufSlice b 9 4) →
        deserializeResponse b = .error .insufficientData)
    ∧ (∀ b : List Nat, METRICS_SIZE ≤ b.length →
        deserializeMetrics b = deserializeMetrics (b.take METRICS_SIZE))
    ∧ (∀ b : List Nat, b.length < METRICS_SIZE →
        deserializeMetrics b = .error .invalidMetricsSize) := by
  refine ⟨?_, ?_, ?_, ?_, ?_, ?_, ?_, ?_, ?_, ?_⟩
  · intro b hb
    simp only [HEADER_SIZE] at hb
    have ht : (b.take 12).length = 12 := by
      simp only [List.length_take]
      omega
    simp only [deserializeHeader, HEADER_SIZE]
    rw [if_neg (by omega), if_neg (by omega)]
    rw [getD_take b 12 0 (by omega), getD_take b 12 1 (by omega),
      getD_take b 12 2 (by omega), getD_take b 12 11 (by omega),
      bufSlice_take b 12 3 8 (by omega)]
  · intro b hb
    simp only [HEADER_SIZE] at hb
    simp only [deserializeHeader, HEADER_SIZE]
    rw [if_pos (by omega)]
  · intro b hb
    simp only [REQUEST_SIZE] at hb
    have ht : (b.take (5 + beToNat (bufSlice b 1 4))).length =
        5 + beToNat (bufSlice b 1 4) := by
      simp only [List.length_take]
      omega
    simp only [deserializeRequest, REQUEST_SIZE]
    rw [bufSlice_take b (5 + beToNat (bufSlice b 1 4)) 1 4 (by omega),
      getD_take b (5 + beToNat (bufSlice b 1 4)) 0 (by omega),
      bufSlice_take b (5 + beToNat (bufSlice b 1 4)) 5 (beToNat (bufSlice b 1 4))
        (by omega)]
    rw [if_neg (by omega), if_neg (by omega), if_neg (by rw [ht]; omega),
      if_neg (by rw [ht]; omega)]
  · intro b hb
    simp only [REQUEST_SIZE] at hb
    simp only [deserializeRequest, REQUEST_SIZE]
    rw [if_pos (by omega)]
  · intro b hb1 hb2
    simp only [REQUEST_SIZE] at hb1 hb2
    simp only [deserializeRequest, REQUEST_SIZE]
    rw [if_neg (by omega), if_pos (by omega)]
  · intro b hb
    simp only [RESPONSE_SIZE] at hb
    have ht : (b.take (13 + beToNat (bufSlice b 9 4))).length =
        13 + beToNat (bufSlice b 9 4) := by
      simp only [List.length_take]
      omega
    simp only [deserializeResponse, RESPONSE_SIZE]
    rw [bufSlice_take b (13 + beToNat (bufSlice b 9 4)) 9 4 (by omega),
      getD_take b (13 + beToNat (bufSlice b 9 4)) 0 (by omega),
      bufSlice_take b (13 + beToNat (bufSlice b 9 4)) 1 8 (by omega),
      bufSlice_take b (13 + beToNat (bufSlice b 9 4)) 13 (beToNat (bufSlice b 9 4))
        (by omega)]
    rw [if_neg (by omega), if_neg (by omega), if_neg (by rw [ht]; omega),
      if_neg (by rw [ht]; omega)]
  · intro b hb
    simp only [RESPONSE_SIZE] at hb
    simp only [deserializeResponse, RESPONSE_SIZE]
    rw [if_pos (by omega)]
  · intro b hb1 hb2
    simp only [RESPONSE_SIZE] at hb1 hb2
    simp only [deserializeResponse, RESPONSE_SIZE]
    rw [if_neg (by omega), if_pos (by omega)]
  · intro b hb
    simp only [METRICS_SIZE] at hb
    have ht : (b.take 36).length = 36 := by
      simp only [List.length_take]
      omega
    simp only [deserializeMetrics, METRICS_SIZE]
    rw [if_neg (by omega), if_neg (by omega)]
    rw [bufSlice_take b 36 0 8 (by omega), bufSlice_take b 36 8 8 (by omega),
      bufSlice_take b 36 16 8 (by omega), bufSlice_take b 36 24 8 (by omega),
      bufSlice_take b 36 32 4 (by omega)]
  · intro b hb
    simp only [METRICS_SIZE] at hb
    simp only [deserializeMetrics, METRICS_SIZE]
    rw [if_pos (by omega)]

/-- C8, witness: a 13-byte buffer deserializes to the same header as its
12-byte prefix, and an 11-byte buffer is rejected for its size. -/
theorem claim_C8_trailingBytes_witness :
    deserializeHeader [16, 4, 0, 0, 0, 0, 0, 0, 0, 0, 0, 0, 99] =
      deserializeHeader ([16, 4, 0, 0, 0, 0, 0, 0, 0, 0, 0, 0, 99].take HEADER_SIZE)
    ∧ deserializeHeader [16, 4, 0, 0, 0, 0, 0, 0, 0, 0, 0] =
      .error .invalidHeaderSize :=
  ⟨claim_C8_trailingBytes.1 _ (by decide),
    claim_C8_trailingBytes.2.1 _ (by decide)⟩

/-- C9: `deserializeHeader` does not validate the type field — any 12-byte
buffer whose version, length and reserved fields satisfy the invariants
deserializes successfully, whatever its type byte, into a header carrying
that type — and an unknown type surfaces only at the stream dispatcher,
whose `default` branch closes the stream. -/
theorem claim_C9_typeNotValidated :
    (∀ b : List Nat, b.length = HEADER_SIZE → b.getD 0 0 = VERSION →
      beToNat (bufSlice b 3 8) ≤ MAX_PAYLOAD_SIZE → b.getD 11 0 = 0 →
      deserializeHeader b =
        .ok ⟨VERSION, b.getD 1 0, b.getD 2 0, beToNat (bufSlice b 3 8), 0⟩)
    ∧ (∀ t : Nat, t ≠ MessageType.Access → t ≠ MessageType.Metrics →
        t ≠ MessageType.End → dispatchType t = .closeStream) := by
  constructor
  · intro b hb h0 hlen h11
    simp only [HEADER_SIZE] at hb
    simp only [deserializeHeader, HEADER_SIZE]
    rw [if_neg (by omega)]
    rw [show (⟨b.getD 0 0, b.getD 1 0, b.getD 2 0, beToNat (bufSlice b 3 8),
      b.getD 11 0⟩ : Header) =
      ⟨VERSION, b.getD 1 0, b.getD 2 0, beToNat (bufSlice b 3 8), 0⟩ from by
        rw [h0, h11]]
    rw [(validateHeader_ok_iff _).mpr ⟨rfl, hlen, rfl⟩]
  · intro t h3 h5 h6
    unfold dispatchType
    rw [if_neg h3, if_neg h5, if_neg h6]

/-- C9, witness: a 12-byte buffer with the unknown type byte `0xAB`
deserializes successfully into a header of that type, and the dispatcher
closes the stream on it. -/
theorem claim_C9_typeNotValidated_witness :
    deserializeHeader [16, 171, 0, 0, 0, 0, 0, 0, 0, 0, 0, 0] =
      .ok ⟨16, 171, 0, 0, 0⟩
    ∧ dispatchType 171 = .closeStream := by
  constructor
  · have h := claim_C9_typeNotValidated.1 [16, 171, 0, 0, 0, 0, 0, 0, 0, 0, 0, 0]
      (by decide) (by decide) (by decide) (by decide)
    exact h
  · exact claim_C9_typeNotValidated.2 171 (by decide) (by decide) (by decide)

theorem handleResponse_state (s : ClientState) (p : Response) (s2 : ClientState)
    (o : HandshakeOutcome) (h : handleResponse s p = .ok (s2, o)) :
    s2 = if p.status = StatusCode.OK then ⟨p.domain⟩ else s := by
  unfold handleResponse at h
  by_cases h1 : p.status = StatusCode.NameTaken
  · rw [if_pos h1] at h
    simp only [Except.ok.injEq, Prod.mk.injEq] at h
    rw [if_neg (by rw [h1]; decide)]
    exact h.1.symm
  · rw [if_neg h1] at h
    by_cases h2 : p.status = StatusCode.UnsupportedProto
    · rw [if_pos h2] at h
      simp only [Except.ok.injEq, Prod.mk.injEq] at h
      rw [if_neg (by rw [h2]; decide)]
      exact h.1.symm
    · rw [if_neg h2] at h
      by_cases h3 : p.status = StatusCode.OK
      · rw [if_pos h3] at h
        simp only [Except.ok.injEq, Prod.mk.injEq] at h
        rw [if_pos h3]
        exact h.1.symm
      · rw [if_neg h3] at h
        simp at h

/-- C10: `getDomain` returns the empty string on a fresh client; processing
the handshake response writes the domain only on the OK branch — NameTaken
and UnsupportedProto return with the state unchanged, the error path
returns no state at all — and after an OK response `getDomain` returns
exactly the domain that response carried. -/
theorem claim_C10_domainWriteOnce :
    getDomain initClient = []
    ∧ (∀ (s : ClientState) (p : Response) (s2 : ClientState) (o : HandshakeOutcome),
        handleResponse s p = .ok (s2, o) →
        getDomain s2 = if p.status = StatusCode.OK then p.domain else getDomain s)
    ∧ (∀ (s : ClientState) (p : Response), p.status = StatusCode.OK →
        handleResponse s p = .ok (⟨p.domain⟩, .established))
    ∧ (∀ (s : ClientState) (p : Response), p.status ≠ StatusCode.OK →
        ∀ (s2 : ClientState) (o : HandshakeOutcome),
          handleResponse s p = .ok (s2, o) → s2 = s) := by
  refine ⟨rfl, ?_, ?_, ?_⟩
  · intro s p s2 o h
    rw [handleResponse_state s p s2 o h]
    split_ifs with hok
    · rfl
    · rfl
  · intro s p hs
    unfold handleResponse
    rw [if_neg (by rw [hs]; decide), if_neg (by rw [hs]; decide), if_pos hs]
  · intro s p hs s2 o h
    rw [handleResponse_state s p s2 o h, if_neg hs]

/-- C10, witness: the write-once law at a concrete response — an OK response
with domain bytes `[100]` records exactly that domain. -/
theorem claim_C10_domainWriteOnce_witness :
    handleResponse initClient (Response.make StatusCode.OK 0 [100]) =
      .ok (⟨[100]⟩, .established) :=
  claim_C10_domainWriteOnce.2.2.1 initClient (Response.make StatusCode.OK 0 [100]) rfl

end Wormhole
